import Mathlib

/-!
# Verification of the minimal OpenTelemetry subsystem of `WebServer.cpp`

Shallow embedding of the `otel` namespace (Metric, MetricsRegistry, Span)
and the `VisitCounter` class of `src/WebserverOpenTelemetry/WebServer.cpp`.

Modelling conventions:
* C++ `std::string` is Lean `String`; C++ byte-wise lexicographic comparison
  agrees with Lean's `String` order on the character lists (UTF-8 preserves
  codepoint order), which is what `std::map` sorting uses.
* `int64_t` accumulators are modelled as `Int`: the domain only ever adds the
  small value 1 or 5, so 64-bit overflow is unreachable and no `% 2^64`
  wrapping is modelled.
* `std::unordered_map` is modelled as an association list in insertion order;
  its real iteration order is an unspecified hash-bucket order, and in
  particular is *not* sorted by key.  Everywhere the C++ code needs a sorted
  view it explicitly copies into a `std::map`, which we model by sorting the
  association list by key.
* Each mutating C++ method takes its locks for the whole operation, so a
  concurrent history is some sequential interleaving of the atomic operations;
  we model operations as pure state transformers and interleavings as lists.
* `std::chrono` time points are modelled as `Nat` parameters supplied by the
  environment, and the console (`std::cout`) span export is modelled as an
  append-only `List SpanRecord` sink threaded through `Span.End`.
-/

namespace WebServerOtel

/-- Association-list lookup, modelling `find` on a C++ map keyed by strings. -/
def lookupStr {α : Type} (k : String) : List (String × α) → Option α
  | [] => none
  | (k', v) :: rest => if k' = k then some v else lookupStr k rest

/-- Lexicographic comparison of character sequences, the order
`std::map<std::string, ...>` sorts its keys by (byte-wise comparison of the
UTF-8 encoding, which coincides with codepoint-wise comparison). -/
def charListLe : List Char → List Char → Bool
  | [], _ => true
  | _ :: _, [] => false
  | a :: as, b :: bs =>
    if a.toNat < b.toNat then true
    else if b.toNat < a.toNat then false
    else charListLe as bs

/-- String comparison as `std::string::operator<=` orders map keys. -/
def strLe (a b : String) : Bool := charListLe a.data b.data

/-- The key ordering used by `std::map<std::string, ...>`:
compare the first components. -/
def keyLe {α : Type} (p q : String × α) : Prop := strLe p.1 q.1 = true

instance {α : Type} : DecidableRel (keyLe (α := α)) :=
  fun p q => inferInstanceAs (Decidable (strLe p.1 q.1 = true))

theorem charListLe_cons (a b : Char) (as bs : List Char) :
    charListLe (a :: as) (b :: bs) = true
      ↔ a.toNat < b.toNat ∨ (a.toNat = b.toNat ∧ charListLe as bs = true) := by
  have hdef : charListLe (a :: as) (b :: bs)
      = if a.toNat < b.toNat then true
        else if b.toNat < a.toNat then false
        else charListLe as bs := rfl
  rw [hdef]
  split_ifs with h1 h2
  · simp [h1]
  · constructor
    · intro hx
      exact absurd hx (by simp)
    · rintro (hx | ⟨e, _⟩)
      · exact absurd hx h1
      · exact absurd e (by omega)
  · have he : a.toNat = b.toNat := by omega
    simp [he]

theorem charListLe_total : ∀ as bs : List Char,
    charListLe as bs = true ∨ charListLe bs as = true
  | [], _ => Or.inl rfl
  | _ :: _, [] => Or.inr rfl
  | a :: as, b :: bs => by
    rcases Nat.lt_trichotomy a.toNat b.toNat with h | h | h
    · exact Or.inl ((charListLe_cons a b as bs).mpr (Or.inl h))
    · rcases charListLe_total as bs with hr | hr
      · exact Or.inl ((charListLe_cons a b as bs).mpr (Or.inr ⟨h, hr⟩))
      · exact Or.inr ((charListLe_cons b a bs as).mpr (Or.inr ⟨h.symm, hr⟩))
    · exact Or.inr ((charListLe_cons b a bs as).mpr (Or.inl h))

theorem charListLe_trans : ∀ as bs cs : List Char,
    charListLe as bs = true → charListLe bs cs = true → charListLe as cs = true
  | [], _, _ => fun _ _ => rfl
  | _ :: _, [], _ => by
    intro h _
    simp [charListLe] at h
  | _ :: _, _ :: _, [] => by
    intro _ h
    simp [charListLe] at h
  | a :: as, b :: bs, c :: cs => by
    intro h1 h2
    rw [charListLe_cons] at h1 h2 ⊢
    rcases h1 with h1 | ⟨e1, r1⟩
    · rcases h2 with h2 | ⟨e2, r2⟩
      · exact Or.inl (h1.trans h2)
      · exact Or.inl (e2 ▸ h1)
    · rcases h2 with h2 | ⟨e2, r2⟩
      · exact Or.inl (e1 ▸ h2)
      · exact Or.inr ⟨e1.trans e2, charListLe_trans as bs cs r1 r2⟩

theorem charListLe_antisymm : ∀ as bs : List Char,
    charListLe as bs = true → charListLe bs as = true → as = bs
  | [], [] => fun _ _ => rfl
  | [], _ :: _ => by
    intro _ h
    simp [charListLe] at h
  | _ :: _, [] => by
    intro h _
    simp [charListLe] at h
  | a :: as, b :: bs => by
    intro h1 h2
    rw [charListLe_cons] at h1 h2
    rcases h1 with h1 | ⟨e1, r1⟩
    · rcases h2 with h2 | ⟨e2, r2⟩
      · exact absurd h2 (Nat.lt_asymm h1)
      · exact absurd h1 (by omega)
    · rcases h2 with h2 | ⟨e2, r2⟩
      · exact absurd h2 (by omega)
      · have hab : a = b := Char.eq_of_val_eq (UInt32.ext e1)
        have hrest : as = bs := charListLe_antisymm as bs r1 r2
        rw [hab, hrest]

theorem strLe_total (a b : String) : strLe a b = true ∨ strLe b a = true :=
  charListLe_total a.data b.data

theorem strLe_trans {a b c : String} (h1 : strLe a b = true)
    (h2 : strLe b c = true) : strLe a c = true :=
  charListLe_trans a.data b.data c.data h1 h2

theorem strLe_antisymm {a b : String} (h1 : strLe a b = true)
    (h2 : strLe b a = true) : a = b := by
  cases a with
  | mk da =>
    cases b with
    | mk db =>
      have : da = db := charListLe_antisymm da db h1 h2
      rw [this]

instance {α : Type} : IsTotal (String × α) keyLe :=
  ⟨fun a b => strLe_total a.1 b.1⟩

instance {α : Type} : IsTrans (String × α) keyLe :=
  ⟨fun _ _ _ h1 h2 => strLe_trans h1 h2⟩

/-- Sorting an association list by key, modelling the copy of an
`std::unordered_map` into an `std::map` (`WebServer.cpp` lines 158 and 179). -/
def sortByKey {α : Type} (l : List (String × α)) : List (String × α) :=
  List.insertionSort keyLe l

/-- Canonical label key built by `otel::Metric::Add` (lines 156-162):
sort the labels by key, then concatenate `key + ":" + value + ";"` per pair. -/
def canonicalKey (labels : List (String × String)) : String :=
  (sortByKey labels).foldl (fun acc p => acc ++ p.1 ++ ":" ++ p.2 ++ ";") ""

/-- `otel::Metric` (lines 134-221): a named counter whose `values` map the
canonical label key of each series to its accumulator. -/
structure Metric where
  name : String
  description : String
  values : List (String × Int)
deriving DecidableEq, Repr

/-- The `Metric(n, desc)` constructor (line 145): empty `values` map. -/
def Metric.fresh (n desc : String) : Metric := ⟨n, desc, []⟩

/-- `values[label_key] += value` on the `unordered_map` (line 165):
value-initialize the entry at 0 when absent, then add. -/
def bump : List (String × Int) → String → Int → List (String × Int)
  | [], k, v => [(k, v)]
  | (k', v') :: rest, k, v =>
    if k' = k then (k', v' + v) :: rest else (k', v') :: bump rest k v

/-- `otel::Metric::Add(value, labels)` (lines 149-166).  The whole method runs
under the metric's mutex, so it is one atomic step of any concurrent history. -/
def Metric.Add (m : Metric) (value : Int) (labels : List (String × String)) :
    Metric :=
  { m with values := bump m.values (canonicalKey labels) value }

/-- Splitting a character sequence at every occurrence of a separator
character, the effect of the repeated `find`/`substr`/`erase` loop of
`GetPrometheusFormat` on the whole string (the list ends with the segment
after the last separator). -/
def splitChars (sep : Char) : List Char → List (List Char)
  | [] => [[]]
  | c :: rest =>
    if c = sep then [] :: splitChars sep rest
    else
      match splitChars sep rest with
      | [] => [[c]]
      | h :: t => (c :: h) :: t

/-- Splitting at the *first* occurrence of a separator character, the effect
of one `token.find(":")` / `substr` pair; `none` when the separator is
absent (`npos`). -/
def splitAtFirst (sep : Char) : List Char → Option (List Char × List Char)
  | [] => none
  | c :: rest =>
    if c = sep then some ([], rest)
    else (splitAtFirst sep rest).map (fun p => (c :: p.1, p.2))

/-- The token list the label-parsing loop of `GetPrometheusFormat`
(lines 190-211) extracts from a canonical key: every `;`-terminated segment;
the trailing segment after the last `;` is never reached by the loop. -/
def parseTokens (s : String) : List String :=
  ((splitChars ';' s.data).dropLast).map String.mk

/-- One iteration of the token loop (lines 196-209): skip empty tokens and
tokens without a colon; otherwise split at the *first* colon. -/
def tokenPair (t : String) : Option (String × String) :=
  if t = "" then none
  else
    match splitAtFirst ':' t.data with
    | none => none
    | some (k, v) => some (String.mk k, String.mk v)

/-- Comma separation driven by the `first` flag of the label loop
(lines 187-207). -/
def intercalateSep (sep : String) : List String → String
  | [] => ""
  | [x] => x
  | x :: xs => x ++ sep ++ intercalateSep sep xs

/-- The `{k1="v1",k2="v2"}` fragment of one exposition line (lines 185-213):
nothing at all for the empty canonical key, otherwise braces around the
comma-separated renderings of the parsed tokens. -/
def labelFragment (key : String) : String :=
  if key = "" then ""
  else
    "\x7b" ++
      intercalateSep ","
        (((parseTokens key).filterMap tokenPair).map
          (fun p => p.1 ++ "=\"" ++ p.2 ++ "\"")) ++
    "\x7d"

/-- The per-series value lines of `GetPrometheusFormat` (lines 179-217):
series sorted by canonical key (the temporary `std::map ordered_values`),
one `name{labels} value` line each. -/
def Metric.bodyText (m : Metric) : String :=
  String.join ((sortByKey m.values).map
    (fun p => m.name ++ labelFragment p.1 ++ " " ++ toString p.2 ++ "\n"))

/-- `otel::Metric::GetPrometheusFormat` (lines 170-220): HELP line, TYPE line,
then the per-series value lines. -/
def Metric.GetPrometheusFormat (m : Metric) : String :=
  "# HELP " ++ m.name ++ " " ++ m.description ++ "\n" ++
  ("# TYPE " ++ m.name ++ " counter\n") ++
  m.bodyText

/-- `otel::MetricsRegistry` (lines 225-277): the singleton catalog mapping
metric name to owned `Metric`.  The `unordered_map` is modelled as an
association list in insertion order (its real iteration order is an
unspecified hash order; it is not sorted by name). -/
structure MetricsRegistry where
  metrics : List (String × Metric)
deriving DecidableEq, Repr

/-- The registry before any `CreateCounter` call. -/
def MetricsRegistry.empty : MetricsRegistry := ⟨[]⟩

/-- `otel::MetricsRegistry::CreateCounter(name, description)` (lines 250-260):
find-or-insert under the registry mutex; returns the registry state and the
metric the returned `Metric*` points at. -/
def MetricsRegistry.CreateCounter (r : MetricsRegistry) (name description : String) :
    MetricsRegistry × Metric :=
  match lookupStr name r.metrics with
  | some m => (r, m)
  | none =>
    let m := Metric.fresh name description
    (⟨r.metrics ++ [(name, m)]⟩, m)

/-- Dereferencing a stored `Metric*` and calling `Add` on it: the pointer
returned by `CreateCounter name _` aims at the unique metric stored under
`name`, so mutation through it updates that registry slot. -/
def MetricsRegistry.addTo (r : MetricsRegistry) (name : String) (value : Int)
    (labels : List (String × String)) : MetricsRegistry :=
  ⟨r.metrics.map (fun p => if p.1 = name then (p.1, p.2.Add value labels) else p)⟩

/-- `otel::MetricsRegistry::GetAllMetrics` (lines 263-276): serialize every
metric in the map's iteration order, appending `"\n"` after each block. -/
def MetricsRegistry.GetAllMetrics (r : MetricsRegistry) : String :=
  String.join (r.metrics.map (fun p => p.2.GetPrometheusFormat ++ "\n"))

/-- Modelled from the spec: `serializeAll` as §4.1 words it, "in a
deterministic order (by metric name)" — serialize the registry's metrics
sorted by name.  `GetAllMetrics` above is the code's actual behavior; this
definition exists only to compare the code against the spec's ordering. -/
def specSerializeAllSorted (r : MetricsRegistry) : String :=
  String.join ((sortByKey r.metrics).map (fun p => p.2.GetPrometheusFormat ++ "\n"))

/-- The structured record `otel::Span::End` writes to the console sink
(lines 108-117): name, trace id, span id, duration, and the ordered
attribute list. -/
structure SpanRecord where
  name : String
  trace_id : String
  span_id : String
  duration : Nat
  attributes : List (String × String)
deriving DecidableEq, Repr

/-- `otel::Span` (lines 69-130).  `start_time` and the end times are `Nat`
clock readings supplied by the environment; `trace_id`/`span_id` are the
random hex strings the `SpanContext` constructor produced. -/
structure Span where
  name : String
  trace_id : String
  span_id : String
  start_time : Nat
  attributes : List (String × String)
  ended : Bool
deriving DecidableEq, Repr

/-- The `Span(n)` constructor (line 79): records the start time, no
attributes, not ended. -/
def Span.start (n trace_id span_id : String) (t : Nat) : Span :=
  ⟨n, trace_id, span_id, t, [], false⟩

/-- `otel::Span::SetAttribute` (lines 82-84): unconditionally appends to the
attribute vector — there is no check of the `ended` flag. -/
def Span.SetAttribute (s : Span) (key value : String) : Span :=
  { s with attributes := s.attributes ++ [(key, value)] }

/-- `otel::Span::End` (lines 99-120): if already ended do nothing; otherwise
emit one record to the sink and set `ended`.  `end_time` is the clock reading
taken inside the call. -/
def Span.End (s : Span) (end_time : Nat) (sink : List SpanRecord) :
    Span × List SpanRecord :=
  if s.ended then (s, sink)
  else
    ({ s with ended := true },
     sink ++ [⟨s.name, s.trace_id, s.span_id, end_time - s.start_time,
               s.attributes⟩])

/-- The `~Span` destructor (lines 125-129): call `End` only when not ended. -/
def Span.destruct (s : Span) (end_time : Nat) (sink : List SpanRecord) :
    Span × List SpanRecord :=
  if s.ended then (s, sink) else s.End end_time sink

/-- `values[k]++` on `std::map<std::string,int> path_counters` (line 327). -/
def bumpNat : List (String × Nat) → String → List (String × Nat)
  | [], k => [(k, 1)]
  | (k', v) :: rest, k =>
    if k' = k then (k', v + 1) :: rest else (k', v) :: bumpNat rest k

/-- The metric-name derivation of `VisitCounter::incrementPath`
(lines 331-340): `"otel_path_" + path.substr(1) + "_visits"`, with the path
`"/"` special-cased to `"otel_path_root_visits"` and every `'/'` otherwise
replaced by `'_'`. -/
def metricNameOf (path : String) : String :=
  if path = "/" then "otel_path_root_visits"
  else String.mk
    ((("otel_path_".data ++ path.data.drop 1 ++ "_visits".data)).map
      (fun c => if c = '/' then '_' else c))

/-- `VisitCounter` (lines 283-397).  `path_metrics` maps each seen path to
the registry name its cached `Metric*` points at. -/
structure VisitCounter where
  total_counter : Nat
  path_counters : List (String × Nat)
  path_metrics : List (String × String)
  reg : MetricsRegistry
deriving DecidableEq, Repr

/-- The `VisitCounter` constructor (lines 304-309): registers the total-visit
counter in the (initially empty) registry. -/
def VisitCounter.init : VisitCounter :=
  ⟨0, [], [],
   (MetricsRegistry.empty.CreateCounter "otel_visit_counter_total"
     "Numero totale di visite al server (OTEL)").1⟩

/-- `VisitCounter::incrementTotal` (lines 313-321): atomic increment of
`total_counter`, then `Add(1)` on the total metric; returns the
post-increment value. -/
def VisitCounter.incrementTotal (s : VisitCounter) : VisitCounter × Nat :=
  ({ s with
      total_counter := s.total_counter + 1,
      reg := s.reg.addTo "otel_visit_counter_total" 1 [] },
   s.total_counter + 1)

/-- `VisitCounter::incrementPath` (lines 324-352), one critical section:
bump `path_counters[path]`, lazily create/cache the per-path metric, then
`Add(1, {{"path", path}})` through the cached pointer. -/
def VisitCounter.incrementPath (s : VisitCounter) (path : String) : VisitCounter :=
  let pcs := bumpNat s.path_counters path
  match lookupStr path s.path_metrics with
  | some mname =>
    { s with
        path_counters := pcs,
        reg := s.reg.addTo mname 1 [("path", path)] }
  | none =>
    let mname := metricNameOf path
    let reg1 := (s.reg.CreateCounter mname
      ("Visite al percorso " ++ path ++ " (OTEL)")).1
    { s with
        path_counters := pcs,
        path_metrics := s.path_metrics ++ [(path, mname)],
        reg := reg1.addTo mname 1 [("path", path)] }

/-- `VisitCounter::getTotal` (lines 355-357). -/
def VisitCounter.getTotal (s : VisitCounter) : Nat := s.total_counter

/-- `VisitCounter::getPathCounters` (lines 362-365): consistent copy of the
path-count map. -/
def VisitCounter.getPathCounters (s : VisitCounter) : List (String × Nat) :=
  s.path_counters

/-- Sum of the per-path counts of a snapshot. -/
def sumCounts (l : List (String × Nat)) : Nat := (l.map Prod.snd).sum

/-- One completed request cycle as every handler performs it
(e.g. lines 432-433): `incrementTotal()` immediately followed by
`incrementPath(path)`. -/
def requestCycle (s : VisitCounter) (path : String) : VisitCounter :=
  (s.incrementTotal).1.incrementPath path

/-- A quiescent state: a finite sequence of completed request cycles. -/
def applyCycles (s : VisitCounter) (paths : List String) : VisitCounter :=
  paths.foldl requestCycle s

/-- A finite sequential history of `Metric::Add` calls (each call is atomic
under the metric's mutex, so any concurrent interleaving is such a list). -/
def applyAdds (m : Metric) (calls : List (Int × List (String × String))) : Metric :=
  calls.foldl (fun acc c => acc.Add c.1 c.2) m

/-- The accumulator a metric stores under canonical key `k` (0 when the
series is absent, matching `unordered_map` value-initialization). -/
def Metric.valueOf (m : Metric) (k : String) : Int :=
  (lookupStr k m.values).getD 0

/-- The sum of the deltas of the calls whose label set canonicalizes to `k`. -/
def sumDeltasFor (k : String) : List (Int × List (String × String)) → Int
  | [] => 0
  | c :: cs => (if canonicalKey c.2 = k then c.1 else 0) + sumDeltasFor k cs

/-! ## Helper lemmas -/

/-- Strict key order, used to identify sorted association lists with
pairwise-distinct keys. -/
def keyLt {α : Type} (p q : String × α) : Prop := keyLe p q ∧ p.1 ≠ q.1

instance {α : Type} : IsAntisymm (String × α) keyLt :=
  ⟨fun _ _ h1 h2 => absurd (strLe_antisymm h1.1 h2.1) h1.2⟩

theorem sortByKey_perm {α : Type} (l : List (String × α)) :
    (sortByKey l).Perm l :=
  List.perm_insertionSort keyLe l

theorem sortByKey_sorted {α : Type} (l : List (String × α)) :
    (sortByKey l).Sorted keyLe :=
  List.sorted_insertionSort keyLe l

theorem sortByKey_eq_of_perm {α : Type} {l l' : List (String × α)}
    (h : l.Perm l') (hnd : (l.map Prod.fst).Nodup) :
    sortByKey l = sortByKey l' := by
  have hperm : (sortByKey l).Perm (sortByKey l') :=
    (sortByKey_perm l).trans (h.trans (sortByKey_perm l').symm)
  have hnd1 : ((sortByKey l).map Prod.fst).Nodup :=
    (((sortByKey_perm l).map Prod.fst).nodup_iff).mpr hnd
  have hnd2 : ((sortByKey l').map Prod.fst).Nodup :=
    ((hperm.map Prod.fst).nodup_iff).mp hnd1
  have hlt : ∀ (m : List (String × α)), m.Sorted keyLe →
      (m.map Prod.fst).Nodup → m.Sorted keyLt := by
    intro m hs hn
    have hne : m.Pairwise (fun p q : String × α => p.1 ≠ q.1) :=
      List.pairwise_map.mp hn
    exact (hs.and hne).imp (fun h => ⟨h.1, h.2⟩)
  exact List.eq_of_perm_of_sorted hperm
    (hlt _ (sortByKey_sorted l) hnd1) (hlt _ (sortByKey_sorted l') hnd2)

theorem canonicalKey_of_perm {l l' : List (String × String)}
    (h : l.Perm l') (hnd : (l.map Prod.fst).Nodup) :
    canonicalKey l = canonicalKey l' := by
  unfold canonicalKey
  rw [sortByKey_eq_of_perm h hnd]

theorem getD_bump (vs : List (String × Int)) (k k' : String) (v : Int) :
    (lookupStr k' (bump vs k v)).getD 0
      = (lookupStr k' vs).getD 0 + (if k = k' then v else 0) := by
  induction vs with
  | nil =>
    by_cases h : k = k' <;> simp [bump, lookupStr, h]
  | cons p rest ih =>
    obtain ⟨a, b⟩ := p
    by_cases hak : a = k
    · subst hak
      by_cases hak' : a = k'
      · subst hak'
        simp [bump, lookupStr]
      · simp [bump, lookupStr, hak']
    · by_cases hak' : a = k'
      · subst hak'
        have hkk' : ¬ k = a := fun h => hak h.symm
        simp [bump, lookupStr, hak, hkk']
      · simp [bump, lookupStr, hak, hak', ih]

theorem valueOf_Add (m : Metric) (v : Int) (ls : List (String × String))
    (k : String) :
    (m.Add v ls).valueOf k
      = m.valueOf k + (if canonicalKey ls = k then v else 0) := by
  unfold Metric.valueOf Metric.Add
  exact getD_bump m.values (canonicalKey ls) k v

theorem valueOf_applyAdds (calls : List (Int × List (String × String)))
    (m : Metric) (k : String) :
    (applyAdds m calls).valueOf k = m.valueOf k + sumDeltasFor k calls := by
  induction calls generalizing m with
  | nil => simp [applyAdds, sumDeltasFor]
  | cons c cs ih =>
    have hstep : applyAdds m (c :: cs) = applyAdds (m.Add c.1 c.2) cs := rfl
    rw [hstep, ih, valueOf_Add, sumDeltasFor]
    ring

theorem sumDeltasFor_of_perm {calls calls' : List (Int × List (String × String))}
    (h : calls.Perm calls') (k : String) :
    sumDeltasFor k calls = sumDeltasFor k calls' := by
  induction h with
  | nil => rfl
  | cons c _ ih => simp [sumDeltasFor, ih]
  | swap x y l => simp [sumDeltasFor]; ring
  | trans _ _ ih1 ih2 => exact ih1.trans ih2

theorem lookupStr_append_of_none {α : Type} {k : String}
    {l₁ : List (String × α)} (l₂ : List (String × α))
    (h : lookupStr k l₁ = none) :
    lookupStr k (l₁ ++ l₂) = lookupStr k l₂ := by
  induction l₁ with
  | nil => rfl
  | cons p rest ih =>
    by_cases hp : p.1 = k
    · simp [lookupStr, hp] at h
    · simp only [lookupStr, hp, if_neg] at h ⊢
      simpa [lookupStr, hp] using ih h

theorem lookupStr_eq_none_iff {α : Type} (k : String) (l : List (String × α)) :
    lookupStr k l = none ↔ k ∉ l.map Prod.fst := by
  induction l with
  | nil => simp [lookupStr]
  | cons p rest ih =>
    obtain ⟨a, b⟩ := p
    by_cases hp : a = k
    · subst hp
      simp [lookupStr]
    · have hne : ¬ k = a := fun h => hp h.symm
      simp [lookupStr, hp, ih, hne]

theorem sumCounts_bumpNat (l : List (String × Nat)) (k : String) :
    sumCounts (bumpNat l k) = sumCounts l + 1 := by
  induction l with
  | nil => simp [bumpNat, sumCounts]
  | cons p rest ih =>
    obtain ⟨a, b⟩ := p
    by_cases h : a = k
    · simp [bumpNat, h, sumCounts]
      omega
    · simp [bumpNat, h, sumCounts] at ih ⊢
      omega

theorem requestCycle_total (s : VisitCounter) (p : String) :
    (requestCycle s p).total_counter = s.total_counter + 1 := by
  unfold requestCycle VisitCounter.incrementTotal VisitCounter.incrementPath
  cases h : lookupStr p s.path_metrics <;> simp [h]

theorem requestCycle_paths (s : VisitCounter) (p : String) :
    (requestCycle s p).path_counters = bumpNat s.path_counters p := by
  unfold requestCycle VisitCounter.incrementTotal VisitCounter.incrementPath
  cases h : lookupStr p s.path_metrics <;> simp [h]

theorem applyCycles_consistent (ps : List String) (s : VisitCounter)
    (h : s.total_counter = sumCounts s.path_counters) :
    (applyCycles s ps).total_counter
      = sumCounts (applyCycles s ps).path_counters := by
  induction ps generalizing s with
  | nil => exact h
  | cons p rest ih =>
    have hstep : applyCycles s (p :: rest) = applyCycles (requestCycle s p) rest := rfl
    rw [hstep]
    exact ih _ (by rw [requestCycle_total, requestCycle_paths, sumCounts_bumpNat, h])

/-! ## Claim theorems -/

/-- C1: for every Metric and every finite sequence of `Add(delta, labels)`
calls (each atomic under the metric mutex, so a concurrent interleaving is a
permutation of the sequence), the final accumulator under a canonical key `k`
equals the sum of the deltas whose labels canonicalize to `k`; the result is
the same for every permutation of the calls; and two label sets with the same
key-value pairs in different insertion order (distinct keys, as label sets
come from a string-keyed map) produce the same canonical key, hence update
the same accumulator. -/
theorem metric_add_linearizable (n d : String)
    (calls calls' : List (Int × List (String × String))) (hp : calls.Perm calls')
    (ls ls' : List (String × String)) (hl : ls.Perm ls')
    (hnd : (ls.map Prod.fst).Nodup) (k : String) :
    (applyAdds (Metric.fresh n d) calls).valueOf k = sumDeltasFor k calls
    ∧ (applyAdds (Metric.fresh n d) calls').valueOf k
        = (applyAdds (Metric.fresh n d) calls).valueOf k
    ∧ canonicalKey ls = canonicalKey ls' := by
  have h1 : ∀ cs, (applyAdds (Metric.fresh n d) cs).valueOf k = sumDeltasFor k cs := by
    intro cs
    rw [valueOf_applyAdds]
    simp [Metric.valueOf, Metric.fresh, lookupStr]
  refine ⟨h1 calls, ?_, canonicalKey_of_perm hl hnd⟩
  rw [h1 calls, h1 calls']
  exact (sumDeltasFor_of_perm hp k).symm

/-- Two concrete interleavings of the same two `Add` calls, and one label set
written with its two keys in both insertion orders. -/
def c1CallsA : List (Int × List (String × String)) :=
  [(2, [("b", "2"), ("a", "1")]), (1, [("a", "1"), ("b", "2")])]

def c1CallsB : List (Int × List (String × String)) :=
  [(1, [("a", "1"), ("b", "2")]), (2, [("b", "2"), ("a", "1")])]

/-- Witness for C1 at a concrete pair of interleavings. -/
theorem metric_add_linearizable_witness :
    (applyAdds (Metric.fresh "m" "d") c1CallsA).valueOf
        (canonicalKey [("a", "1"), ("b", "2")])
      = sumDeltasFor (canonicalKey [("a", "1"), ("b", "2")]) c1CallsA
    ∧ (applyAdds (Metric.fresh "m" "d") c1CallsB).valueOf
        (canonicalKey [("a", "1"), ("b", "2")])
      = (applyAdds (Metric.fresh "m" "d") c1CallsA).valueOf
          (canonicalKey [("a", "1"), ("b", "2")])
    ∧ canonicalKey [("a", "1"), ("b", "2")] = canonicalKey [("b", "2"), ("a", "1")] :=
  metric_add_linearizable "m" "d" c1CallsA c1CallsB
    (List.Perm.swap (1, [("a", "1"), ("b", "2")]) (2, [("b", "2"), ("a", "1")]) [])
    [("a", "1"), ("b", "2")] [("b", "2"), ("a", "1")]
    (List.Perm.swap ("b", "2") ("a", "1") [])
    (by decide) (canonicalKey [("a", "1"), ("b", "2")])

/-- A registry in which the metric named b was registered before the metric
named a: the `GetAllMetrics` output is in registration order, not name order. -/
def regBA : MetricsRegistry :=
  ((MetricsRegistry.empty.CreateCounter "b" "x").1.CreateCounter "a" "y").1

/-- C2 counterexample: `GetAllMetrics` does not serialize in an order sorted
by metric name — on a registry holding b before a its output differs from the
name-sorted serialization the spec describes. -/
theorem getAllMetrics_not_sorted_cex :
    regBA.GetAllMetrics ≠ specSerializeAllSorted regBA := by decide

/-- C2 amended: `GetAllMetrics` serializes every registered Metric in the
registry map's own iteration order (not sorted by metric name), each block
consisting of the HELP line, the TYPE line with type counter, and the value
lines, with a blank line after every block (hence between consecutive
blocks); concretely, with b registered before a, the b block comes first. -/
theorem getAllMetrics_amended :
    (∀ r : MetricsRegistry,
      r.GetAllMetrics = String.join (r.metrics.map (fun p =>
        "# HELP " ++ p.2.name ++ " " ++ p.2.description ++ "\n" ++
        ("# TYPE " ++ p.2.name ++ " counter\n") ++ p.2.bodyText ++ "\n")))
    ∧ regBA.GetAllMetrics
        = "# HELP b x\n# TYPE b counter\n\n# HELP a y\n# TYPE a counter\n\n" :=
  ⟨fun _ => rfl, by decide⟩

/-- C3: the registry holds at most one Metric per name; `CreateCounter`
inserts a fresh Metric only when the name is absent, otherwise it returns the
stored Metric and leaves the registry unchanged, so a second call with the
same name and a different description returns the Metric created by the first
call (original description, no error). -/
theorem createCounter_idempotent (r : MetricsRegistry) (n d d' : String) :
    (∀ m, lookupStr n r.metrics = some m → r.CreateCounter n d = (r, m))
    ∧ (lookupStr n r.metrics = none →
        (r.CreateCounter n d).1.metrics = r.metrics ++ [(n, Metric.fresh n d)]
          ∧ (r.CreateCounter n d).2 = Metric.fresh n d)
    ∧ ((r.CreateCounter n d).1).CreateCounter n d'
        = ((r.CreateCounter n d).1, (r.CreateCounter n d).2)
    ∧ ((r.metrics.map Prod.fst).Nodup →
        (((r.CreateCounter n d).1).metrics.map Prod.fst).Nodup) := by
  have hget : ∀ (r1 : MetricsRegistry) (d1 : String) (m1 : Metric),
      lookupStr n r1.metrics = some m1 → r1.CreateCounter n d1 = (r1, m1) := by
    intro r1 d1 m1 h
    unfold MetricsRegistry.CreateCounter
    rw [h]
  have hkey : lookupStr n ((r.CreateCounter n d).1).metrics
      = some ((r.CreateCounter n d).2) := by
    unfold MetricsRegistry.CreateCounter
    cases h : lookupStr n r.metrics with
    | some m => simp [h]
    | none => simp [h, lookupStr_append_of_none _ h, lookupStr]
  refine ⟨fun m hm => hget r d m hm, ?_, hget _ d' _ hkey, ?_⟩
  · intro hn
    constructor <;> simp [MetricsRegistry.CreateCounter, hn]
  · intro hnd
    cases h : lookupStr n r.metrics with
    | some m =>
      simpa [MetricsRegistry.CreateCounter, h] using hnd
    | none =>
      have hnmem : n ∉ r.metrics.map Prod.fst := (lookupStr_eq_none_iff n r.metrics).mp h
      have hres : ((r.metrics ++ [(n, Metric.fresh n d)]).map Prod.fst).Nodup := by
        rw [List.map_append]
        refine List.Nodup.append hnd (by simp) ?_
        intro x hx hx2
        simp at hx2
        subst hx2
        exact hnmem hx
      simpa [MetricsRegistry.CreateCounter, h] using hres

/-- Witness for C3: on the empty registry, the first call inserts the metric
named x with description d1, and a second call with description d2 returns
that same stored pair. -/
theorem createCounter_idempotent_witness :
    ((MetricsRegistry.empty.CreateCounter "x" "d1").1.metrics
        = MetricsRegistry.empty.metrics ++ [("x", Metric.fresh "x" "d1")])
    ∧ ((MetricsRegistry.empty.CreateCounter "x" "d1").1.CreateCounter "x" "d2"
        = ((MetricsRegistry.empty.CreateCounter "x" "d1").1,
           (MetricsRegistry.empty.CreateCounter "x" "d1").2)) :=
  ⟨((createCounter_idempotent MetricsRegistry.empty "x" "d1" "d2").2.1 rfl).1,
   (createCounter_idempotent MetricsRegistry.empty "x" "d1" "d2").2.2.1⟩

/-- C4: span ending is idempotent: the first `End` call on a not-yet-ended
span emits exactly one structured record (name, trace id, span id, duration
computed from the end time, full attribute list) and sets the ended flag;
every later `End` call, and the automatic destructor-driven end, leaves both
the span and the sink unchanged. -/
theorem span_end_idempotent (s : Span) (h : s.ended = false)
    (t t' t'' : Nat) (sink : List SpanRecord) :
    (s.End t sink).2
      = sink ++ [⟨s.name, s.trace_id, s.span_id, t - s.start_time, s.attributes⟩]
    ∧ (s.End t sink).1.ended = true
    ∧ (s.End t sink).1.End t' (s.End t sink).2 = ((s.End t sink).1, (s.End t sink).2)
    ∧ (s.End t sink).1.destruct t'' (s.End t sink).2
        = ((s.End t sink).1, (s.End t sink).2) := by
  simp [Span.End, Span.destruct, h]

/-- Witness for C4 on a freshly started span. -/
theorem span_end_idempotent_witness :
    ((Span.start "req" "tid" "sid" 3).End 10 []).2
      = [] ++ [⟨"req", "tid", "sid", 10 - 3, []⟩]
    ∧ ((Span.start "req" "tid" "sid" 3).End 10 []).1.ended = true
    ∧ ((Span.start "req" "tid" "sid" 3).End 10 []).1.End 11
        ((Span.start "req" "tid" "sid" 3).End 10 []).2
      = (((Span.start "req" "tid" "sid" 3).End 10 []).1,
         ((Span.start "req" "tid" "sid" 3).End 10 []).2)
    ∧ ((Span.start "req" "tid" "sid" 3).End 10 []).1.destruct 12
        ((Span.start "req" "tid" "sid" 3).End 10 []).2
      = (((Span.start "req" "tid" "sid" 3).End 10 []).1,
         ((Span.start "req" "tid" "sid" 3).End 10 []).2) :=
  span_end_idempotent (Span.start "req" "tid" "sid" 3) rfl 10 11 12 []

/-- A span that has already been ended, with one recorded attribute. -/
def endedSpanEx : Span := ⟨"s", "t", "i", 0, [("a", "b")], true⟩

/-- C5 counterexample: `SetAttribute` called after `End` is not a no-op on
the span state — the attribute is appended to the stored attribute sequence,
not silently dropped. -/
theorem setAttribute_after_end_cex :
    (endedSpanEx.SetAttribute "k" "v").attributes ≠ endedSpanEx.attributes := by
  decide

/-- C5 amended: after `End`, `SetAttribute` still appends the attribute to
the stored attribute sequence (the C++ method never consults the ended
flag), raises no error, and the span stays ended, so any later `End` or
destructor emits no record — hence the late attribute never appears in any
emitted record (the only record was emitted before the attribute existed). -/
theorem setAttribute_after_end_amended (s : Span) (h : s.ended = true)
    (k v : String) (t t' : Nat) (sink : List SpanRecord) :
    (s.SetAttribute k v).attributes = s.attributes ++ [(k, v)]
    ∧ (s.SetAttribute k v).ended = true
    ∧ (s.SetAttribute k v).End t sink = (s.SetAttribute k v, sink)
    ∧ (s.SetAttribute k v).destruct t' sink = (s.SetAttribute k v, sink) := by
  simp [Span.SetAttribute, Span.End, Span.destruct, h]

/-- Witness for C5 (amended) on the concrete ended span. -/
theorem setAttribute_after_end_amended_witness :
    (endedSpanEx.SetAttribute "k" "v").attributes = endedSpanEx.attributes ++ [("k", "v")]
    ∧ (endedSpanEx.SetAttribute "k" "v").ended = true
    ∧ (endedSpanEx.SetAttribute "k" "v").End 5 [] = (endedSpanEx.SetAttribute "k" "v", [])
    ∧ (endedSpanEx.SetAttribute "k" "v").destruct 6 []
        = (endedSpanEx.SetAttribute "k" "v", []) :=
  setAttribute_after_end_amended endedSpanEx rfl "k" "v" 5 6 []

/-- The three `add` calls of the labeled literal example. -/
def c6Calls : List (Int × List (String × String)) :=
  [(1, [("path", "/")]), (1, [("path", "/")]), (1, [("path", "/stats")])]

/-- C6: on a fresh Metric named p (any description), the three labeled adds
produce exactly the two value lines of the serialization — the body of
`GetPrometheusFormat`, which by definition follows the HELP and TYPE lines —
with the series for the canonical key of path / before the one for
path /stats (sorted by canonical key) and the label rendered as
path equals quoted value. -/
theorem labeled_literal_example (d : String) :
    (applyAdds (Metric.fresh "p" d) c6Calls).bodyText
      = "p\x7bpath=\"/\"\x7d 2\np\x7bpath=\"/stats\"\x7d 1\n"
    ∧ (applyAdds (Metric.fresh "p" d) c6Calls).GetPrometheusFormat
      = "# HELP " ++ "p" ++ " " ++ d ++ "\n" ++
        ("# TYPE " ++ "p" ++ " counter\n") ++
        "p\x7bpath=\"/\"\x7d 2\np\x7bpath=\"/stats\"\x7d 1\n" :=
  ⟨rfl, rfl⟩

/-- C7: on a fresh Metric named c with description d, `Add(5)` with no labels
then serializing yields exactly the HELP line, the TYPE line, and the bare
unlabeled value line (no braces), in that order. -/
theorem exposition_literal_example :
    ((Metric.fresh "c" "d").Add 5 []).GetPrometheusFormat
      = "# HELP c d\n# TYPE c counter\nc 5\n" := by
  decide

/-- Two semantically distinct label sets that collide: the single label
a maps-to b;c:d versus the two labels a maps-to b and c maps-to d. -/
def c8LabelsA : List (String × String) := [("a", "b;c:d")]

def c8LabelsB : List (String × String) := [("a", "b"), ("c", "d")]

/-- C8: the canonical-key construction is not injective — the two label sets
above are distinct as mappings (they disagree on key c) and a value contains
both a colon and a semicolon, yet their canonical keys are equal, so their
`Add` calls accumulate into one single series. -/
theorem canonical_key_collision :
    canonicalKey c8LabelsA = canonicalKey c8LabelsB
    ∧ lookupStr "c" c8LabelsA = none
    ∧ lookupStr "c" c8LabelsB = some "d"
    ∧ (applyAdds (Metric.fresh "m" "desc") [(1, c8LabelsA), (2, c8LabelsB)]).values
        = [("a:b;c:d;", 3)] := by
  decide

/-- C9: in any quiescent state reached from the initial `VisitCounter` by a
finite sequence of completed request cycles (each one `incrementTotal` then
one `incrementPath`), `getTotal` equals the sum of the `getPathCounters`
snapshot values; in the transient state between the two increments of the
next cycle the total exceeds the snapshot sum by one. -/
theorem visit_counter_quiescent_consistency (ps : List String) :
    (applyCycles VisitCounter.init ps).getTotal
      = sumCounts (applyCycles VisitCounter.init ps).getPathCounters
    ∧ ((applyCycles VisitCounter.init ps).incrementTotal).1.getTotal
      = sumCounts (applyCycles VisitCounter.init ps).getPathCounters + 1 := by
  have h := applyCycles_consistent ps VisitCounter.init rfl
  exact ⟨h, by simp [VisitCounter.incrementTotal, VisitCounter.getTotal,
    VisitCounter.getPathCounters] at h ⊢; exact h⟩

/-- The state after one visit to /a/b and one visit to /a_b. -/
def c10State : VisitCounter :=
  (VisitCounter.init.incrementPath "/a/b").incrementPath "/a_b"

/-- C10: the per-path metric-name derivation is not injective — the distinct
paths /a/b and /a_b both derive otel_path_a_b_visits, so after one
`incrementPath` for each the registry holds a single Metric under that name
(besides the total counter) and both updates landed in it, distinguished
only by the path label. -/
theorem path_metric_name_collision :
    metricNameOf "/a/b" = "otel_path_a_b_visits"
    ∧ metricNameOf "/a_b" = "otel_path_a_b_visits"
    ∧ ("/a/b" : String) ≠ "/a_b"
    ∧ c10State.reg.metrics.map Prod.fst
        = ["otel_visit_counter_total", "otel_path_a_b_visits"]
    ∧ (lookupStr "otel_path_a_b_visits" c10State.reg.metrics).map Metric.values
        = some [("path:/a/b;", 1), ("path:/a_b;", 1)] := by
  decide

end WebServerOtel
